import Mathlib

open scoped List

/-!
Shallow embedding of the cache-key generation, invalidation and cache-adapter
logic of the api-redis-cache repository (`app/utils/redis_cache.py`,
`app/controllers/catalog_controller.py`, `app/models/catalog.py`), together
with theorems settling the specification claims about it.

Strings are modelled by Lean `String` (a list of unicode code points, matching
Python `str` semantics for the operations used here).  The Redis store is an
association list from keys to the serialized strings the client returns
(`decode_responses=True`); TTLs and wall-clock expiry are not modelled.
-/

/-- Python scalar values that appear as query-parameter values in the code
(strings, ints, bools). -/
inductive Scalar where
  | s (v : String)
  | i (v : Int)
  | b (v : Bool)
deriving DecidableEq, Repr

/-- Python `str()` rendering of a scalar, as used by the f-string
`f"{k}={v}"` in `generate_cache_key` (ints print their decimal literal,
bools print `True` / `False`). -/
def Scalar.render : Scalar → String
  | .s v => v
  | .i v => toString v
  | .b v => if v then "True" else "False"

/-- Lexicographic (code-point) comparison of character lists: Python string
`<=`, used by `sorted` on the parameter items. -/
def charsLe : List Char → List Char → Bool
  | [], _ => true
  | _ :: _, [] => false
  | a :: as, b :: bs => if a < b then true else if a = b then charsLe as bs else false

theorem charsLe_cons_cons (x y : Char) (as bs : List Char) :
    charsLe (x :: as) (y :: bs) =
      if x < y then true else if x = y then charsLe as bs else false := rfl

theorem charsLe_total : ∀ a b : List Char, charsLe a b = true ∨ charsLe b a = true := by
  intro a
  induction a with
  | nil => intro b; left; rfl
  | cons x as ih =>
    intro b
    cases b with
    | nil => right; rfl
    | cons y bs =>
      rcases lt_trichotomy x y with h | h | h
      · left; rw [charsLe_cons_cons, if_pos h]
      · subst h
        rcases ih bs with h' | h'
        · left; rw [charsLe_cons_cons, if_neg (lt_irrefl x), if_pos rfl]; exact h'
        · right; rw [charsLe_cons_cons, if_neg (lt_irrefl x), if_pos rfl]; exact h'
      · right; rw [charsLe_cons_cons, if_pos h]

theorem charsLe_trans : ∀ a b c : List Char,
    charsLe a b = true → charsLe b c = true → charsLe a c = true := by
  intro a
  induction a with
  | nil => intro b c _ _; rfl
  | cons x as ih =>
    intro b c h1 h2
    cases b with
    | nil => exact absurd h1 (by simp [charsLe])
    | cons y bs =>
      cases c with
      | nil => exact absurd h2 (by simp [charsLe])
      | cons z cs =>
        by_cases h1lt : x < y
        · by_cases h2lt : y < z
          · rw [charsLe_cons_cons, if_pos (lt_trans h1lt h2lt)]
          · by_cases h2eq : y = z
            · subst h2eq; rw [charsLe_cons_cons, if_pos h1lt]
            · rw [charsLe_cons_cons, if_neg h2lt, if_neg h2eq] at h2
              exact absurd h2 (by simp)
        · by_cases h1eq : x = y
          · subst h1eq
            rw [charsLe_cons_cons, if_neg h1lt, if_pos rfl] at h1
            by_cases h2lt : x < z
            · rw [charsLe_cons_cons, if_pos h2lt]
            · by_cases h2eq : x = z
              · subst h2eq
                rw [charsLe_cons_cons, if_neg h2lt, if_pos rfl] at h2 ⊢
                exact ih bs cs h1 h2
              · rw [charsLe_cons_cons, if_neg h2lt, if_neg h2eq] at h2
                exact absurd h2 (by simp)
          · rw [charsLe_cons_cons, if_neg h1lt, if_neg h1eq] at h1
            exact absurd h1 (by simp)

theorem charsLe_antisymm : ∀ a b : List Char,
    charsLe a b = true → charsLe b a = true → a = b := by
  intro a
  induction a with
  | nil =>
    intro b _ h2
    cases b with
    | nil => rfl
    | cons y bs => exact absurd h2 (by simp [charsLe])
  | cons x as ih =>
    intro b h1 h2
    cases b with
    | nil => exact absurd h1 (by simp [charsLe])
    | cons y bs =>
      by_cases hlt : x < y
      · rw [charsLe_cons_cons, if_neg (lt_asymm hlt), if_neg (ne_of_gt hlt)] at h2
        exact absurd h2 (by simp)
      · by_cases heq : x = y
        · subst heq
          rw [charsLe_cons_cons, if_neg hlt, if_pos rfl] at h1 h2
          rw [ih bs h1 h2]
        · rw [charsLe_cons_cons, if_neg hlt, if_neg heq] at h1
          exact absurd h1 (by simp)

/-- Ordering of `(field, value)` pairs by field name, as Python `sorted` uses
on the items of a dict (field names in a dict are distinct, so the value
component is never compared). -/
def pairLe (a b : String × Scalar) : Prop := charsLe a.1.data b.1.data = true

instance : DecidableRel pairLe := fun a b => by unfold pairLe; infer_instance

instance : IsTotal (String × Scalar) pairLe :=
  ⟨fun a b => charsLe_total a.1.data b.1.data⟩

instance : IsTrans (String × Scalar) pairLe :=
  ⟨fun a b c => charsLe_trans a.1.data b.1.data c.1.data⟩

theorem pairLe_antisymm_fst {a b : String × Scalar} (h1 : pairLe a b) (h2 : pairLe b a) :
    a.1 = b.1 := by
  have h := charsLe_antisymm a.1.data b.1.data h1 h2
  cases ha : a.1 with
  | mk da =>
    cases hb : b.1 with
    | mk db =>
      rw [ha, hb] at h
      simp only [] at h
      rw [h]

/-- Strict version of `pairLe`, used to identify the unique sorted order of a
duplicate-free pair list. -/
def pairLt (a b : String × Scalar) : Prop := pairLe a b ∧ a.1 ≠ b.1

instance : IsAntisymm (String × Scalar) pairLt :=
  ⟨fun a b h1 h2 => absurd (pairLe_antisymm_fst h1.1 h2.1) h1.2⟩

/-- `sorted(filtered_params.items())` in `generate_cache_key`: a stable sort of
the pairs by field name. -/
def sortPairs (l : List (String × Scalar)) : List (String × Scalar) :=
  List.insertionSort pairLe l

/-- The dict comprehension dropping `None`-valued entries in
`generate_cache_key`: `{k: v for k, v in query_params.items() if v is not None}`. -/
def filtered_params (query_params : List (String × Option Scalar)) : List (String × Scalar) :=
  query_params.filterMap fun p => p.2.map fun v => (p.1, v)

/-- Python `"&".join`, at the level of the underlying character lists. -/
def joinAmp (l : List String) : String :=
  String.mk (List.intercalate ['&'] (l.map String.data))

/-- The `f"{k}={v}"` rendering of one sorted parameter pair. -/
def renderPair (p : String × Scalar) : String :=
  p.1 ++ "=" ++ p.2.render

/-- Embeds `RedisCache.generate_cache_key` (`app/utils/redis_cache.py`,
lines 58-77): drop `None`-valued params, return `"<base>:all"` when nothing
remains, else sort the remaining pairs by field name, render each as
`field=value` and join with `&` after the `"<base>:"` prefix.  The
`query_params` argument models a Python dict, so callers establish that its
field names are distinct where that matters. -/
def generate_cache_key (base_key : String) (query_params : List (String × Option Scalar)) : String :=
  if query_params.isEmpty then base_key ++ ":all"
  else
    if (filtered_params query_params).isEmpty then base_key ++ ":all"
    else
      let param_string := joinAmp ((sortPairs (filtered_params query_params)).map renderPair)
      base_key ++ ":" ++ param_string

/-- Concrete evaluation (the spec Scenario 1 shape): a `game_title` filter
plus the ever-present `limit`. -/
theorem generate_cache_key_eval_portal : generate_cache_key "catalog"
    [("game_title", some (.s "Portal")), ("behavior_name", none),
     ("user_id", none), ("limit", some (.i 10000))] =
    "catalog:game_title=Portal&limit=10000" := by decide

/-- Concrete evaluation: an all-null mapping falls back to the `all` key. -/
theorem generate_cache_key_eval_allnull :
    generate_cache_key "catalog" [("k", none)] = "catalog:all" := by decide

/-- What `if game_title:` appends to `patterns_to_delete`
(`app/utils/redis_cache.py`, lines 156-157): the glob
`f"catalog:*game_title={game_title}*"`, only for a truthy (non-`None`,
non-empty) value. -/
def gt_patterns : Option String → List String
  | some g => if g = "" then [] else ["catalog:*game_title=" ++ g ++ "*"]
  | none => []

/-- What `if behavior_name:` appends (lines 160-161). -/
def bn_patterns : Option String → List String
  | some b => if b = "" then [] else ["catalog:*behavior_name=" ++ b ++ "*"]
  | none => []

/-- What `if user_id:` appends (lines 164-165): truthiness drops `0`. -/
def uid_patterns : Option Int → List String
  | some u => if u = 0 then [] else ["catalog:*user_id=" ++ toString u ++ "*"]
  | none => []

/-- Embeds `RedisCache.invalidate_catalog_cache`'s pattern construction
(`app/utils/redis_cache.py`, lines 149-176): Python truthiness (`if game_title:`)
keeps a field only when it is neither `None` nor empty (for strings) nor `0`
(for the int `user_id`); the exact key `"catalog:all"` is always appended. -/
def invalidate_catalog_cache_patterns (game_title behavior_name : Option String)
    (user_id : Option Int) : List String :=
  gt_patterns game_title ++ bn_patterns behavior_name ++ uid_patterns user_id ++ ["catalog:all"]

/-- Concrete evaluation of the Scenario-3 pattern set. -/
theorem invalidate_patterns_eval :
    invalidate_catalog_cache_patterns (some "Portal") (some "play") (some 1) =
    ["catalog:*game_title=Portal*", "catalog:*behavior_name=play*",
     "catalog:*user_id=1*", "catalog:all"] := by decide

/-- Glob matching as performed by the Redis `KEYS` command on the patterns the
code builds, modelling the `*` (any sequence) and `?` (any one character)
wildcards; bracket classes and escapes are not modelled, and theorems about
matching assume values free of wildcard characters. -/
def globMatch : List Char → List Char → Bool
  | [], k => k.isEmpty
  | c :: ps, k =>
    if c = '*' then k.tails.any (fun t => globMatch ps t)
    else
      match k with
      | [] => false
      | x :: ks => if c = '?' then globMatch ps ks else c = x && globMatch ps ks

/-- Glob matching on strings. -/
def globMatchS (pattern key : String) : Bool := globMatch pattern.data key.data

/-- Concrete evaluation: the Scenario-3 glob hits a key containing its
substring. -/
theorem globMatchS_eval_hit :
    globMatchS "catalog:*game_title=Portal*" "catalog:game_title=Portal&limit=10000" = true := by
  decide

/-- Concrete evaluation: the Scenario-3 glob misses the filterless key. -/
theorem globMatchS_eval_miss :
    globMatchS "catalog:*game_title=Portal*" "catalog:limit=10000" = false := by decide

/-- The live key space of the store: an association list from keys to the
serialized strings the client returns (`decode_responses=True`). -/
abbrev Store := List (String × String)

/-- What `self.client.get(key)` returns: the stored string, or `None`. -/
def Store.lookupKey (store : Store) (key : String) : Option String :=
  match store.find? (fun kv => kv.1 = key) with
  | some kv => some kv.2
  | none => none

/-- Removal of one key from the key space (`self.client.delete(key)`). -/
def Store.eraseKey (store : Store) (key : String) : Store :=
  store.filter (fun kv => kv.1 ≠ key)

/-- Embeds `RedisCache.delete` (lines 117-129): `False` when the client is
absent, else delete the key and report whether a key was actually removed. -/
def RedisCache.delete (client : Option Store) (key : String) : Bool × Option Store :=
  match client with
  | none => (false, none)
  | some store => (store.any (fun kv => kv.1 = key), some (Store.eraseKey store key))

/-- Embeds `RedisCache.get` (lines 79-100).  `json_loads` stands for the
external `json.loads`; it returns `none` where the library would raise
`JSONDecodeError`.  A missing client or a falsy (empty) stored string is a
miss; a stored string that fails to deserialize is deleted (self-healing);
every branch returns instead of raising. -/
def RedisCache.get {α : Type} (json_loads : String → Option α)
    (client : Option Store) (key : String) : Option α × Option Store :=
  match client with
  | none => (none, none)
  | some store =>
    match Store.lookupKey store key with
    | none => (none, some store)
    | some cached_data =>
      if cached_data = "" then (none, some store)
      else
        match json_loads cached_data with
        | some payload => (some payload, some store)
        | none => (none, (RedisCache.delete (some store) key).2)

/-- Embeds `RedisCache.set` (lines 102-115).  `json_dumps` stands for the
external `json.dumps(data, default=str)`.  The TTL is administered by the
store and not modelled (no wall clock); `setex` acknowledges with `True`. -/
def RedisCache.set {α : Type} (json_dumps : α → String) (client : Option Store)
    (key : String) (data : α) (ttl : Int) : Bool × Option Store :=
  match client with
  | none => (false, none)
  | some store => (true, some ((key, json_dumps data) :: Store.eraseKey store key))

/-- Embeds `RedisCache.delete_pattern` (lines 131-147): `0` when the client is
absent, else enumerate the keys matching the glob, delete them, and return
how many were removed (an empty match set yields `0`). -/
def RedisCache.delete_pattern (client : Option Store) (pattern : String) : Nat × Option Store :=
  match client with
  | none => (0, none)
  | some store =>
    ((store.filter (fun kv => globMatchS pattern kv.1)).length,
     some (store.filter (fun kv => !globMatchS pattern kv.1)))

/-- Embeds the pattern-purging loop of `RedisCache.invalidate_catalog_cache`
(lines 170-176): purge each produced pattern and sum the deletion counts. -/
def RedisCache.invalidate_catalog_cache (client : Option Store)
    (game_title behavior_name : Option String) (user_id : Option Int) : Nat × Option Store :=
  (invalidate_catalog_cache_patterns game_title behavior_name user_id).foldl
    (fun acc pattern =>
      let r := RedisCache.delete_pattern acc.2 pattern
      (acc.1 + r.1, r.2))
    (0, client)

/-- The shape of `RedisCache.get_cache_stats`'s result (lines 178-213); the
fields filled from the external `info()` call (memory, version, clients) are
not modelled. -/
structure CacheStats where
  status : String
  error : Option String
  total_keys : Nat
  catalog_keys : Nat
deriving DecidableEq, Repr

/-- Embeds `RedisCache.get_cache_stats` (lines 178-213): a disconnected-status
object when the client is absent, else connected-status counts; no branch
raises to the caller. -/
def RedisCache.get_cache_stats (client : Option Store) : CacheStats :=
  match client with
  | none =>
    { status := "disconnected", error := some "Redis client not initialized",
      total_keys := 0, catalog_keys := 0 }
  | some store =>
    { status := "connected", error := none, total_keys := store.length,
      catalog_keys := (store.filter (fun kv => globMatchS "catalog:*" kv.1)).length }

/-- The attribute names defined in the body of `class RedisCache` together with
the instance attributes assigned in `__init__` (`app/utils/redis_cache.py`).
The functions `invalidate_catalog_cache_by_category` (line 230) and
`is_connected` (line 249) are defined at module level (column 0), after the
class body, so they are NOT attributes of the class or of its instances. -/
def redisCacheAttrs : List String :=
  ["__init__", "generate_cache_key", "get", "set", "delete", "delete_pattern",
   "invalidate_catalog_cache", "get_cache_stats", "flush_all",
   "redis_host", "redis_port", "redis_password", "redis_db", "ssl", "client"]

/-- Python `hasattr(cache, name)` for the global `cache` instance. -/
def hasattrCache (name : String) : Bool := redisCacheAttrs.contains name

/-- Embeds the module-level `is_connected` function of `utils/redis_cache.py`
(lines 249-256), which pings the store and never raises; a connected client
answers the ping. -/
def module_is_connected (client : Option Store) : Bool := client.isSome

/-- The `query_params` dict built by `get_catalog`
(`app/controllers/catalog_controller.py`, lines 38-43), in insertion order.
`limit` is a FastAPI query parameter with default `10000` (never `None`), so
it is always a present int entry. -/
def read_query_params (game_title behavior_name : Option String) (user_id : Option Int)
    (limit : Int) : List (String × Option Scalar) :=
  [("game_title", game_title.map Scalar.s),
   ("behavior_name", behavior_name.map Scalar.s),
   ("user_id", user_id.map Scalar.i),
   ("limit", some (Scalar.i limit))]

/-- The cache key `get_catalog` passes to `cache.get` and `cache.set`
(line 44: `cache.generate_cache_key("catalog", query_params)`). -/
def get_catalog_cache_key (game_title behavior_name : Option String) (user_id : Option Int)
    (limit : Int) : String :=
  generate_cache_key "catalog" (read_query_params game_title behavior_name user_id limit)

/-- Embeds the SQL text and parameter list built by `get_catalog`
(`app/controllers/catalog_controller.py`, lines 76-89).  Each filter is added
only when its value is truthy (`if game_title:` etc.), so `None`, `""` and
`0` all leave the query unfiltered; parameters are listed in their `%s`
order, the int parameter rendered for uniformity. -/
def catalog_query_sql (game_title behavior_name : Option String) (user_id : Option Int)
    (limit : Int) : String × List String :=
  let gPart : String × List String :=
    match game_title with
    | some s => if s = "" then ("", []) else (" AND game_title ILIKE %s", ["%" ++ s ++ "%"])
    | none => ("", [])
  let bPart : String × List String :=
    match behavior_name with
    | some s => if s = "" then ("", []) else (" AND behavior_name = %s", [s])
    | none => ("", [])
  let uPart : String × List String :=
    match user_id with
    | some n => if n = 0 then ("", []) else (" AND user_id = %s", [toString n])
    | none => ("", [])
  ("SELECT * FROM user_behaviors WHERE 1=1" ++ gPart.1 ++ bPart.1 ++ uPart.1 ++
     " ORDER BY id LIMIT " ++ toString limit,
   gPart.2 ++ bPart.2 ++ uPart.2)

/-- A row of the `user_behaviors` table (`app/models/catalog.py`: integer id
and user id, string title and behavior, `Decimal` value modelled as `ℚ`). -/
structure CatalogRecord where
  id : Int
  user_id : Int
  game_title : String
  behavior_name : String
  value : ℚ
deriving DecidableEq, Repr

/-- Lower-casing of a string's characters, for `ILIKE` semantics. -/
def lowerData (s : String) : List Char := s.data.map Char.toLower

/-- Whether a record satisfies the WHERE clause produced by `get_catalog` for
the given filters: `game_title ILIKE %g%` is case-insensitive containment
(for wildcard-free `g`), `behavior_name` and `user_id` are equality tests,
and a falsy filter value (absent, `""`, `0`) imposes no condition, exactly
as in `catalog_query_sql`. -/
def record_matches_query (r : CatalogRecord) (game_title behavior_name : Option String)
    (user_id : Option Int) : Bool :=
  (match game_title with
   | some s => if s = "" then true else decide (lowerData s <:+: lowerData r.game_title)
   | none => true) &&
  (match behavior_name with
   | some s => if s = "" then true else r.behavior_name = s
   | none => true) &&
  (match user_id with
   | some n => if n = 0 then true else r.user_id = n
   | none => true)

/-- Why a catalog write request is rejected before anything is persisted. -/
inductive WriteRejection where
  /-- Pydantic validation of the `CatalogItem` body (`app/models/catalog.py`,
  lines 6-11): required field missing, `max_length` exceeded, or `gt=0`
  violated (HTTP 422). -/
  | model_validation
  /-- The explicit controller check (`catalog_controller.py`, lines 149-154):
  empty `game_title` or `behavior_name` (HTTP 400). -/
  | controller_validation
deriving DecidableEq, Repr

/-- Embeds the validation a `POST /catalog` body goes through before the
insert: the pydantic `CatalogItem` model (`user_id : int`,
`game_title : str` with `max_length=100`, `behavior_name : str` with
`max_length=50`, `value : Decimal` with `gt=0`, all required), then the
controller's emptiness check. -/
def catalog_write_rejection (user_id : Option Int) (game_title behavior_name : Option String)
    (value : Option ℚ) : Option WriteRejection :=
  match user_id, game_title, behavior_name, value with
  | some _, some g, some b, some v =>
    if g.length > 100 ∨ b.length > 50 ∨ v ≤ 0 then some .model_validation
    else if g = "" ∨ b = "" then some .controller_validation
    else none
  | _, _, _, _ => some .model_validation

/-- The observable outcome of `create_catalog_item`: the rejection (if any),
the resulting table, the `keys_deleted` count reported in the response's
`cache_invalidation`, and the resulting cache key space. -/
structure WriteOutcome where
  rejection : Option WriteRejection
  db : List CatalogRecord
  keys_deleted : Nat
  client : Option Store
deriving Repr

/-- Embeds `create_catalog_item` (`app/controllers/catalog_controller.py`,
lines 139-211): validate, insert the record (the DB-generated id is modelled
as one past the current row count), then invalidate the cache only under the
guard `hasattr(cache, 'is_connected') and cache.is_connected()`
(line 187).  `keys_deleted` starts at `0` and is only assigned inside that
guard. -/
def create_catalog_item (client : Option Store) (db : List CatalogRecord)
    (user_id : Option Int) (game_title behavior_name : Option String)
    (value : Option ℚ) : WriteOutcome :=
  match h : catalog_write_rejection user_id game_title behavior_name value with
  | some r => { rejection := some r, db := db, keys_deleted := 0, client := client }
  | none =>
    match user_id, game_title, behavior_name, value with
    | some uid, some g, some b, some v =>
      let record : CatalogRecord :=
        { id := (db.length : Int) + 1, user_id := uid, game_title := g,
          behavior_name := b, value := v }
      let inv : Nat × Option Store :=
        if hasattrCache "is_connected" && module_is_connected client then
          RedisCache.invalidate_catalog_cache client (some g) (some b) (some uid)
        else (0, client)
      { rejection := none, db := db ++ [record], keys_deleted := inv.1, client := inv.2 }
    | _, _, _, _ =>
      -- unreachable: a missing field is rejected by `catalog_write_rejection`
      { rejection := some .model_validation, db := db, keys_deleted := 0, client := client }

/-! ### Structural lemmas about the key builder -/

theorem generate_cache_key_of_nil (ns : String) {qp : List (String × Option Scalar)}
    (h : filtered_params qp = []) : generate_cache_key ns qp = ns ++ ":all" := by
  unfold generate_cache_key
  by_cases hq : qp.isEmpty
  · rw [if_pos hq]
  · rw [if_neg hq, if_pos (by rw [h]; rfl)]

theorem generate_cache_key_of_ne_nil (ns : String) {qp : List (String × Option Scalar)}
    (h : filtered_params qp ≠ []) :
    generate_cache_key ns qp =
      ns ++ ":" ++ joinAmp ((sortPairs (filtered_params qp)).map renderPair) := by
  unfold generate_cache_key
  have hq : qp.isEmpty = false := by
    cases qp with
    | nil => exact absurd rfl h
    | cons a t => rfl
  have hf : (filtered_params qp).isEmpty = false := by
    cases hfp : filtered_params qp with
    | nil => exact absurd hfp h
    | cons a t => rfl
  rw [hq, hf]
  simp

theorem sortPairs_perm (l : List (String × Scalar)) : sortPairs l ~ l :=
  List.perm_insertionSort pairLe l

theorem filtered_keys_sublist (f : List (String × Option Scalar)) :
    ((filtered_params f).map Prod.fst) <+ (f.map Prod.fst) := by
  induction f with
  | nil => simp [filtered_params]
  | cons p t ih =>
    cases hp : p.2 with
    | none =>
      simp only [filtered_params, List.filterMap_cons, hp, Option.map_none', List.map_cons]
      exact ih.trans (List.sublist_cons_self _ _)
    | some v =>
      simp only [filtered_params, List.filterMap_cons, hp, Option.map_some', List.map_cons]
      exact ih.cons₂ p.1

theorem sortPairs_sorted_lt {l : List (String × Scalar)}
    (h : (l.map Prod.fst).Nodup) : (sortPairs l).Sorted pairLt := by
  have hs : (sortPairs l).Sorted pairLe := List.sorted_insertionSort pairLe l
  have hperm : sortPairs l ~ l := sortPairs_perm l
  have hnd : ((sortPairs l).map Prod.fst).Nodup := ((hperm.map Prod.fst).nodup_iff).mpr h
  have hpw : (sortPairs l).Pairwise (fun a b => a.1 ≠ b.1) := (List.pairwise_map).mp hnd
  exact (hs.and hpw).imp fun hab => hab

/-- C2.  Key Builder equivalence: for every namespace, two filter mappings
(dicts, hence with duplicate-free field names) that have the same non-null
entries, in whatever order, produce the same key; and a mapping that is empty
or all-null produces `"<ns>:all"`. -/
theorem generate_cache_key_deterministic :
    (∀ (ns : String) (f1 f2 : List (String × Option Scalar)),
        (f1.map Prod.fst).Nodup → (f2.map Prod.fst).Nodup →
        filtered_params f1 ~ filtered_params f2 →
        generate_cache_key ns f1 = generate_cache_key ns f2) ∧
    (∀ (ns : String) (f : List (String × Option Scalar)),
        (∀ p ∈ f, p.2 = none) → generate_cache_key ns f = ns ++ ":all") := by
  constructor
  · intro ns f1 f2 h1 h2 hperm
    by_cases hnil : filtered_params f1 = []
    · have hnil2 : filtered_params f2 = [] := ((hnil ▸ hperm).symm).eq_nil
      rw [generate_cache_key_of_nil ns hnil, generate_cache_key_of_nil ns hnil2]
    · have hnil2 : filtered_params f2 ≠ [] := by
        intro hc
        exact hnil (hc ▸ hperm).eq_nil
      rw [generate_cache_key_of_ne_nil ns hnil, generate_cache_key_of_ne_nil ns hnil2]
      have hsort : sortPairs (filtered_params f1) = sortPairs (filtered_params f2) :=
        List.eq_of_perm_of_sorted
          ((sortPairs_perm _).trans (hperm.trans (sortPairs_perm _).symm))
          (sortPairs_sorted_lt (h1.sublist (filtered_keys_sublist f1)))
          (sortPairs_sorted_lt (h2.sublist (filtered_keys_sublist f2)))
      rw [hsort]
  · intro ns f hall
    apply generate_cache_key_of_nil
    rw [filtered_params, List.filterMap_eq_nil_iff]
    intro p hp
    rw [hall p hp]
    rfl

/-- Witness for C2: the two orderings of `{game_title: "Portal", user_id: 7,
behavior_name: None}` and the all-null mapping, evaluated concretely. -/
theorem generate_cache_key_deterministic_witness :
    generate_cache_key "catalog"
        [("game_title", some (.s "Portal")), ("user_id", some (.i 7)), ("behavior_name", none)] =
      generate_cache_key "catalog"
        [("user_id", some (.i 7)), ("game_title", some (.s "Portal"))] ∧
    generate_cache_key "catalog" [("game_title", none), ("user_id", none)] = "catalog" ++ ":all" :=
  ⟨generate_cache_key_deterministic.1 "catalog" _ _ (by decide) (by decide) (by decide),
   generate_cache_key_deterministic.2 "catalog" _ (by decide)⟩

/-! ### Joined-key decomposition lemmas -/

theorem intercalate_amp_cons (a : List Char) (t : List (List Char)) :
    List.intercalate ['&'] (a :: t) =
      a ++ (if t.isEmpty then [] else '&' :: List.intercalate ['&'] t) := by
  cases t with
  | nil => simp [List.intercalate]
  | cons b t' => simp [List.intercalate, List.intersperse_cons_cons]

theorem exists_of_mem_intercalate {L : List (List Char)} {a : List Char} (h : a ∈ L) :
    ∃ pre post, List.intercalate ['&'] L = pre ++ (a ++ post) := by
  induction L with
  | nil => cases h
  | cons b t ih =>
    rcases List.mem_cons.mp h with rfl | h'
    · refine ⟨[], if t.isEmpty then [] else '&' :: List.intercalate ['&'] t, ?_⟩
      rw [intercalate_amp_cons]
      simp
    · rcases ih h' with ⟨pre, post, hpp⟩
      have ht : t.isEmpty = false := by
        cases t with
        | nil => cases h'
        | cons c t'' => rfl
      exact ⟨b ++ '&' :: pre, post, by simp [intercalate_amp_cons, ht, hpp]⟩

theorem key_data_decomp (ns : String) {qp : List (String × Option Scalar)}
    {p : String × Scalar} (hp : p ∈ filtered_params qp) :
    ∃ pre post, (generate_cache_key ns qp).data = pre ++ ((renderPair p).data ++ post) := by
  have hne : filtered_params qp ≠ [] := List.ne_nil_of_mem hp
  rw [generate_cache_key_of_ne_nil ns hne]
  have hmem : renderPair p ∈ (sortPairs (filtered_params qp)).map renderPair :=
    List.mem_map_of_mem renderPair (((sortPairs_perm _).mem_iff).mpr hp)
  have hmem' : (renderPair p).data ∈
      ((sortPairs (filtered_params qp)).map renderPair).map String.data :=
    List.mem_map_of_mem String.data hmem
  rcases exists_of_mem_intercalate hmem' with ⟨pre, post, hpp⟩
  refine ⟨(ns ++ ":").data ++ pre, post, ?_⟩
  rw [String.data_append, joinAmp, List.append_assoc]
  simp only []
  rw [hpp]

/-- C10.  Implicit falsy-filter asymmetry: a read with `user_id = 0` gets a
cache key containing the pair `user_id=0` (the key builder drops only `None`
values), yet the built SQL query is identical to the one with no `user_id`
filter at all, so the payload cached under that key is unrestricted by user. -/
theorem falsy_user_id_read_asymmetry (game_title behavior_name : Option String) (limit : Int) :
    (∃ pre post,
        (get_catalog_cache_key game_title behavior_name (some 0) limit).data =
          pre ++ ("user_id=0".data ++ post)) ∧
    catalog_query_sql game_title behavior_name (some 0) limit =
      catalog_query_sql game_title behavior_name none limit := by
  constructor
  · have hmem : ("user_id", Scalar.i 0) ∈
        filtered_params (read_query_params game_title behavior_name (some 0) limit) := by
      cases game_title <;> cases behavior_name <;>
        simp [read_query_params, filtered_params, List.filterMap_cons]
    have hrp : (renderPair ("user_id", Scalar.i 0)).data = "user_id=0".data := by decide
    rcases key_data_decomp "catalog" hmem with ⟨pre, post, hpp⟩
    exact ⟨pre, post, by rw [← hrp]; exact hpp⟩
  · simp [catalog_query_sql]

/-- C7.  Disconnected degradation: with the client absent every adapter
operation returns its benign default (`None`, `False`, `False`, `0`, a
disconnected-status stats object) instead of raising. -/
theorem disconnected_degradation {α : Type} (json_loads : String → Option α)
    (json_dumps : α → String) (key : String) (data : α) (ttl : Int) (pattern : String) :
    RedisCache.get json_loads none key = (none, none) ∧
    RedisCache.set json_dumps none key data ttl = (false, none) ∧
    RedisCache.delete none key = (false, none) ∧
    RedisCache.delete_pattern none pattern = (0, none) ∧
    (RedisCache.get_cache_stats none).status = "disconnected" ∧
    (RedisCache.get_cache_stats none).error = some "Redis client not initialized" :=
  ⟨rfl, rfl, rfl, rfl, rfl, rfl⟩

/-- C6.  What the read path actually does with no filters: since `limit` is
always present (default `10000`), the key `get_catalog` uses is
`"catalog:limit=10000"`, not the `"catalog:all"` key the spec (and the
write-path invalidation, which purges exactly `"catalog:all"`) expects. -/
theorem no_filter_read_key_not_all :
    get_catalog_cache_key none none none 10000 = "catalog:limit=10000" ∧
    get_catalog_cache_key none none none 10000 ≠ "catalog:all" := by
  constructor
  · decide
  · decide

/-! ### Pattern-list facts -/

theorem take_append_le {l1 l2 : List Char} {n : ℕ} (h : n ≤ l1.length) :
    (l1 ++ l2).take n = l1.take n := by
  rw [List.take_append_eq_append_take]
  have hz : n - l1.length = 0 := by omega
  rw [hz]
  simp

theorem append_take_ne {p q x y : List Char} (n : ℕ) (hp : n ≤ p.length) (hq : n ≤ q.length)
    (hne : p.take n ≠ q.take n) (h : p ++ x = q ++ y) : False := by
  apply hne
  calc p.take n = (p ++ x).take n := (take_append_le hp).symm
    _ = (q ++ y).take n := by rw [h]
    _ = q.take n := take_append_le hq

theorem pat_ne_gt_bn (g b : String) :
    ("catalog:*game_title=" ++ g ++ "*") ≠ ("catalog:*behavior_name=" ++ b ++ "*") := by
  intro h
  have hd := congrArg String.data h
  simp only [String.data_append, List.append_assoc] at hd
  exact append_take_ne 10 (by decide) (by decide) (by decide) hd

theorem pat_ne_gt_uid (g : String) (u : Int) :
    ("catalog:*game_title=" ++ g ++ "*") ≠ ("catalog:*user_id=" ++ toString u ++ "*") := by
  intro h
  have hd := congrArg String.data h
  simp only [String.data_append, List.append_assoc] at hd
  exact append_take_ne 10 (by decide) (by decide) (by decide) hd

theorem pat_ne_bn_uid (b : String) (u : Int) :
    ("catalog:*behavior_name=" ++ b ++ "*") ≠ ("catalog:*user_id=" ++ toString u ++ "*") := by
  intro h
  have hd := congrArg String.data h
  simp only [String.data_append, List.append_assoc] at hd
  exact append_take_ne 10 (by decide) (by decide) (by decide) hd

theorem pat_ne_gt_all (g : String) : ("catalog:*game_title=" ++ g ++ "*") ≠ "catalog:all" := by
  intro h
  have hd := congrArg String.data h
  rw [← List.append_nil "catalog:all".data] at hd
  simp only [String.data_append, List.append_assoc] at hd
  exact append_take_ne 9 (by decide) (by decide) (by decide) hd

theorem pat_ne_bn_all (b : String) : ("catalog:*behavior_name=" ++ b ++ "*") ≠ "catalog:all" := by
  intro h
  have hd := congrArg String.data h
  rw [← List.append_nil "catalog:all".data] at hd
  simp only [String.data_append, List.append_assoc] at hd
  exact append_take_ne 9 (by decide) (by decide) (by decide) hd

theorem pat_ne_uid_all (u : Int) : ("catalog:*user_id=" ++ toString u ++ "*") ≠ "catalog:all" := by
  intro h
  have hd := congrArg String.data h
  rw [← List.append_nil "catalog:all".data] at hd
  simp only [String.data_append, List.append_assoc] at hd
  exact append_take_ne 9 (by decide) (by decide) (by decide) hd

theorem mem_gt_patterns {g? : Option String} {p : String} :
    p ∈ gt_patterns g? ↔ ∃ g, g? = some g ∧ g ≠ "" ∧ p = "catalog:*game_title=" ++ g ++ "*" := by
  rcases g? with _ | g
  · simp [gt_patterns]
  · by_cases hg : g = "" <;> simp [gt_patterns, hg]

theorem mem_bn_patterns {b? : Option String} {p : String} :
    p ∈ bn_patterns b? ↔ ∃ b, b? = some b ∧ b ≠ "" ∧ p = "catalog:*behavior_name=" ++ b ++ "*" := by
  rcases b? with _ | b
  · simp [bn_patterns]
  · by_cases hb : b = "" <;> simp [bn_patterns, hb]

theorem mem_uid_patterns {u? : Option Int} {p : String} :
    p ∈ uid_patterns u? ↔ ∃ u, u? = some u ∧ u ≠ 0 ∧ p = "catalog:*user_id=" ++ toString u ++ "*" := by
  rcases u? with _ | u
  · simp [uid_patterns]
  · by_cases hu : u = 0 <;> simp [uid_patterns, hu]

/-- C5 counterexample: the non-null falsy values `""` (game_title) and `0`
(user_id) yield no glob at all, contradicting the claim that every non-null
pair is represented. -/
theorem invalidate_patterns_drop_falsy_values :
    invalidate_catalog_cache_patterns (some "") (some "play") (some 0) =
      ["catalog:*behavior_name=play*", "catalog:all"] ∧
    "catalog:*user_id=0*" ∉ invalidate_catalog_cache_patterns (some "") (some "play") (some 0) ∧
    "catalog:*game_title=*" ∉ invalidate_catalog_cache_patterns (some "") (some "play") (some 0) :=
  ⟨by decide, by decide, by decide⟩

/-- C5 amended: the produced list contains exactly one glob
`catalog:*field=value*` for each of the three fields whose value is truthy
(non-null and neither `""` nor `0`), plus the exact key `"catalog:all"`, and
nothing else (the list is duplicate-free, so "exactly one" holds). -/
theorem invalidate_patterns_characterization (game_title behavior_name : Option String)
    (user_id : Option Int) :
    (∀ p : String,
      p ∈ invalidate_catalog_cache_patterns game_title behavior_name user_id ↔
        (p = "catalog:all" ∨
         (∃ g, game_title = some g ∧ g ≠ "" ∧ p = "catalog:*game_title=" ++ g ++ "*") ∨
         (∃ b, behavior_name = some b ∧ b ≠ "" ∧ p = "catalog:*behavior_name=" ++ b ++ "*") ∨
         (∃ u, user_id = some u ∧ u ≠ 0 ∧ p = "catalog:*user_id=" ++ toString u ++ "*"))) ∧
    (invalidate_catalog_cache_patterns game_title behavior_name user_id).Nodup := by
  constructor
  · intro p
    simp only [invalidate_catalog_cache_patterns, List.mem_append, List.mem_singleton,
      mem_gt_patterns, mem_bn_patterns, mem_uid_patterns]
    constructor
    · rintro (((⟨g, h1, h2, rfl⟩ | ⟨b, h1, h2, rfl⟩) | ⟨u, h1, h2, rfl⟩) | h)
      · exact Or.inr (Or.inl ⟨g, h1, h2, rfl⟩)
      · exact Or.inr (Or.inr (Or.inl ⟨b, h1, h2, rfl⟩))
      · exact Or.inr (Or.inr (Or.inr ⟨u, h1, h2, rfl⟩))
      · exact Or.inl h
    · rintro (h | ⟨g, h1, h2, rfl⟩ | ⟨b, h1, h2, rfl⟩ | ⟨u, h1, h2, rfl⟩)
      · exact Or.inr h
      · exact Or.inl (Or.inl (Or.inl ⟨g, h1, h2, rfl⟩))
      · exact Or.inl (Or.inl (Or.inr ⟨b, h1, h2, rfl⟩))
      · exact Or.inl (Or.inr ⟨u, h1, h2, rfl⟩)
  · rcases game_title with _ | g <;> rcases behavior_name with _ | b <;>
      rcases user_id with _ | u <;>
      simp only [invalidate_catalog_cache_patterns, gt_patterns, bn_patterns, uid_patterns] <;>
      (try split_ifs) <;>
      simp_all [List.nodup_cons, List.nodup_append, List.Disjoint,
        pat_ne_gt_bn, pat_ne_gt_uid, pat_ne_bn_uid, pat_ne_gt_all, pat_ne_bn_all, pat_ne_uid_all]

/-- C4.  The write path never purges anything: `is_connected` is defined at
module level in `utils/redis_cache.py` (line 249), not on the `RedisCache`
class, so `hasattr(cache, 'is_connected')` is `False` and the guarded
invalidation block of `create_catalog_item` (lines 186-192) never runs.  For
every connected store and valid write the cache is left untouched and the
response reports `keys_deleted = 0`; in particular for the Scenario-3 write
(`game_title="Portal"`, `behavior_name="play"`) with `"catalog:all"` and a
matching query key cached, both stay cached. -/
theorem write_path_never_invalidates :
    (∀ (client : Option Store) (db : List CatalogRecord) (user_id : Option Int)
        (game_title behavior_name : Option String) (value : Option ℚ),
      (create_catalog_item client db user_id game_title behavior_name value).client = client ∧
      (create_catalog_item client db user_id game_title behavior_name value).keys_deleted = 0) ∧
    hasattrCache "is_connected" = false ∧
    (create_catalog_item
        (some [("catalog:all", "x"),
               ("catalog:behavior_name=play&game_title=Portal&limit=10000", "y")])
        [] (some 1) (some "Portal") (some "play") (some 1)).client =
      some [("catalog:all", "x"),
            ("catalog:behavior_name=play&game_title=Portal&limit=10000", "y")] ∧
    (create_catalog_item
        (some [("catalog:all", "x"),
               ("catalog:behavior_name=play&game_title=Portal&limit=10000", "y")])
        [] (some 1) (some "Portal") (some "play") (some 1)).keys_deleted = 0 ∧
    (create_catalog_item
        (some [("catalog:all", "x"),
               ("catalog:behavior_name=play&game_title=Portal&limit=10000", "y")])
        [] (some 1) (some "Portal") (some "play") (some 1)).rejection = none := by
  refine ⟨?_, by decide, by decide, by decide, by decide⟩
  intro client db user_id game_title behavior_name value
  have hattr : hasattrCache "is_connected" = false := by decide
  unfold create_catalog_item
  split
  · simp
  · split
    · simp [hattr]
    · simp

/-- A miniature deserializer for decimal payloads, standing in for
`json.loads` in concrete evaluations: succeeds exactly on non-empty
all-digit strings. -/
def parseNatPayload (s : String) : Option Nat :=
  if s.data ≠ [] ∧ s.data.all Char.isDigit then
    some (s.data.foldl (fun n c => 10 * n + (c.toNat - 48)) 0)
  else none

/-- C8 counterexample: an empty stored string fails JSON deserialization
(`json.loads("")` raises), but `get` treats it as a plain miss via the falsy
`if cached_data:` check and leaves the corrupt entry in the store instead of
deleting it.  The codec here reads numeric payloads, on which `""` fails. -/
theorem get_keeps_empty_corrupt_entry :
    parseNatPayload "" = none ∧
    Store.lookupKey [("k", "")] "k" = some "" ∧
    RedisCache.get parseNatPayload (some [("k", "")]) "k" = (none, some [("k", "")]) :=
  ⟨by decide, by decide, by decide⟩

/-- C8 amended: for a key holding a NON-EMPTY payload, `get` deletes the entry
and reports a miss when the payload fails to deserialize, and returns the
deserialized payload leaving the store untouched when it parses; an empty
stored payload is reported as a miss and left in place. -/
theorem redis_get_selfheal {α : Type} (json_loads : String → Option α)
    (store : Store) (key s : String) (hs : Store.lookupKey store key = some s) :
    (s ≠ "" → json_loads s = none →
        RedisCache.get json_loads (some store) key = (none, some (Store.eraseKey store key))) ∧
    (∀ p, s ≠ "" → json_loads s = some p →
        RedisCache.get json_loads (some store) key = (some p, some store)) ∧
    (s = "" → RedisCache.get json_loads (some store) key = (none, some store)) := by
  refine ⟨fun hne hjl => ?_, fun p hne hjl => ?_, fun he => ?_⟩
  · simp [RedisCache.get, hs, hne, hjl, RedisCache.delete]
  · simp [RedisCache.get, hs, hne, hjl]
  · subst he
    simp [RedisCache.get, hs]

/-- Witness for C8's amended theorem: a numeric codec, a store holding the
unparsable payload `"xx"` under `"k"`, evaluated concretely. -/
theorem redis_get_selfheal_witness :
    RedisCache.get parseNatPayload (some [("k", "xx")]) "k" =
      (none, some (Store.eraseKey [("k", "xx")] "k")) :=
  (redis_get_selfheal parseNatPayload [("k", "xx")] "k" "xx" (by decide)).1
    (by decide) (by decide)

/-- C9 counterexample: a body whose required fields are all present and
non-empty and whose value is positive is still rejected when
`behavior_name` exceeds the pydantic `max_length=50` bound, so "all required
fields present and value > 0" does not suffice for acceptance. -/
theorem write_validation_rejects_overlong_behavior :
    (String.mk (List.replicate 51 'a')) ≠ "" ∧
    (0 : ℚ) < 1 ∧
    catalog_write_rejection (some 1) (some "Portal") (some (String.mk (List.replicate 51 'a')))
        (some 1) = some WriteRejection.model_validation ∧
    (create_catalog_item none [] (some 1) (some "Portal")
        (some (String.mk (List.replicate 51 'a'))) (some 1)).db = [] :=
  ⟨by decide, by decide, by decide, by decide⟩

/-- C9 amended: a write is rejected, with nothing persisted, when the value
is missing or `≤ 0` (in particular `0`) or when `game_title` or
`behavior_name` is missing or empty; and a write whose fields are all
present and non-empty, within the pydantic length bounds (`game_title` at
most 100 characters, `behavior_name` at most 50), with a present positive
value, is not rejected. -/
theorem catalog_write_validation (client : Option Store) (db : List CatalogRecord)
    (user_id : Option Int) (game_title behavior_name : Option String) (value : Option ℚ) :
    ((value = none ∨ (∃ v, value = some v ∧ v ≤ 0) ∨
        game_title = none ∨ game_title = some "" ∨
        behavior_name = none ∨ behavior_name = some "") →
      (create_catalog_item client db user_id game_title behavior_name value).rejection.isSome
          = true ∧
      (create_catalog_item client db user_id game_title behavior_name value).db = db) ∧
    (∀ uid g b v, user_id = some uid → game_title = some g → behavior_name = some b →
        value = some v → g ≠ "" → b ≠ "" → g.length ≤ 100 → b.length ≤ 50 → 0 < v →
      (create_catalog_item client db user_id game_title behavior_name value).rejection = none) := by
  constructor
  · intro h
    have hr : ∃ r, catalog_write_rejection user_id game_title behavior_name value = some r := by
      rcases user_id with _ | uid <;> rcases game_title with _ | g <;>
        rcases behavior_name with _ | b <;> rcases value with _ | v <;>
        simp_all [catalog_write_rejection] <;>
        (try split_ifs) <;> simp_all
    rcases hr with ⟨r, hr⟩
    have hco : create_catalog_item client db user_id game_title behavior_name value =
        { rejection := some r, db := db, keys_deleted := 0, client := client } := by
      unfold create_catalog_item
      split
      · rename_i r' heq
        rw [hr] at heq
        have hrr := Option.some.inj heq
        rw [hrr]
      · rename_i heq
        rw [hr] at heq
        exact Option.noConfusion heq
    rw [hco]
    exact ⟨rfl, rfl⟩
  · intro uid g b v hu hg hb hv hgne hbne hglen hblen hvpos
    subst hu; subst hg; subst hb; subst hv
    have hc1 : ¬(g.length > 100 ∨ b.length > 50 ∨ v ≤ 0) := by
      push_neg
      exact ⟨by omega, by omega, hvpos⟩
    have hc2 : ¬(g = "" ∨ b = "") := by
      simp [hgne, hbne]
    have hr : catalog_write_rejection (some uid) (some g) (some b) (some v) = none := by
      simp [catalog_write_rejection, hc1, hc2]
    unfold create_catalog_item
    split
    · rename_i r heq
      rw [hr] at heq
      exact Option.noConfusion heq
    · rfl

/-- Witness for C9's amended theorem: the rejected empty-`behavior_name`
write and the accepted Scenario-3 write, evaluated concretely. -/
theorem catalog_write_validation_witness :
    (create_catalog_item none [] (some 1) (some "Portal") (some "") (some 1)).rejection.isSome
        = true ∧
    (create_catalog_item none [] (some 1) (some "Portal") (some "play") (some 1)).rejection
        = none :=
  ⟨((catalog_write_validation none [] (some 1) (some "Portal") (some "") (some 1)).1
      (Or.inr (Or.inr (Or.inr (Or.inr (Or.inr rfl)))))).1,
   (catalog_write_validation none [] (some 1) (some "Portal") (some "play") (some 1)).2
      1 "Portal" "play" 1 rfl rfl rfl rfl (by decide) (by decide) (by decide) (by decide)
      (by decide)⟩

/-! ### Positive glob-matching lemmas -/

theorem globMatch_nil (k : List Char) : globMatch [] k = k.isEmpty := by
  simp [globMatch]

theorem globMatch_star_cons (p k : List Char) :
    globMatch ('*' :: p) k = k.tails.any (fun t => globMatch p t) := by
  simp [globMatch]

theorem globMatch_star_all (k : List Char) : globMatch ['*'] k = true := by
  rw [globMatch_star_cons, List.any_eq_true]
  exact ⟨[], (List.mem_tails [] k).mpr List.nil_suffix, by simp [globMatch]⟩

theorem globMatch_literal {l : List Char} (hl : ∀ c ∈ l, c ≠ '*' ∧ c ≠ '?')
    (p k : List Char) : globMatch (l ++ p) (l ++ k) = globMatch p k := by
  induction l with
  | nil => rfl
  | cons c l' ih =>
    have hc := hl c (List.mem_cons_self c l')
    have ih' := ih fun x hx => hl x (List.mem_cons_of_mem c hx)
    simp [globMatch, hc.1, hc.2, ih']

theorem globMatch_star_skip {p k : List Char} (t : List Char) (ht : t <:+ k)
    (h : globMatch p t = true) : globMatch ('*' :: p) k = true := by
  rw [globMatch_star_cons, List.any_eq_true]
  exact ⟨t, (List.mem_tails t k).mpr ht, h⟩

theorem globMatch_prefix_star {ns fv : List Char} (hns : ∀ c ∈ ns, c ≠ '*' ∧ c ≠ '?')
    (hfv : ∀ c ∈ fv, c ≠ '*' ∧ c ≠ '?') (mid post : List Char) :
    globMatch (ns ++ '*' :: (fv ++ ['*'])) (ns ++ (mid ++ (fv ++ post))) = true := by
  rw [globMatch_literal hns]
  apply globMatch_star_skip (fv ++ post) (List.suffix_append mid (fv ++ post))
  rw [globMatch_literal hfv]
  exact globMatch_star_all post

theorem key_data_decomp_ns (ns : String) {qp : List (String × Option Scalar)}
    {p : String × Scalar} (hp : p ∈ filtered_params qp) :
    ∃ mid post, (generate_cache_key ns qp).data =
      (ns ++ ":").data ++ (mid ++ ((renderPair p).data ++ post)) := by
  have hne : filtered_params qp ≠ [] := List.ne_nil_of_mem hp
  rw [generate_cache_key_of_ne_nil ns hne]
  have hmem : (renderPair p).data ∈
      ((sortPairs (filtered_params qp)).map renderPair).map String.data :=
    List.mem_map_of_mem String.data
      (List.mem_map_of_mem renderPair (((sortPairs_perm _).mem_iff).mpr hp))
  rcases exists_of_mem_intercalate hmem with ⟨mid, post, hpp⟩
  refine ⟨mid, post, ?_⟩
  rw [String.data_append, joinAmp]
  simp only []
  rw [hpp]

/-- Matching a `catalog:*fieldEq ++ valS*`-shaped glob against a key whose
filter mapping contains a pair rendering to `fieldEq ++ valS`. -/
theorem glob_field_matches {patS : String} (fieldEq valS : String)
    {qp : List (String × Option Scalar)} (pr : String × Scalar)
    (hp : pr ∈ filtered_params qp)
    (hrp : (renderPair pr).data = fieldEq.data ++ valS.data)
    (hpat : ∀ c ∈ fieldEq.data ++ valS.data, c ≠ '*' ∧ c ≠ '?')
    (hpd : patS.data = "catalog:".data ++ '*' :: ((fieldEq.data ++ valS.data) ++ ['*'])) :
    globMatchS patS (generate_cache_key "catalog" qp) = true := by
  rcases key_data_decomp_ns "catalog" hp with ⟨mid, post, hkey⟩
  have hcat : ("catalog" ++ ":").data = "catalog:".data := by decide
  rw [hcat, hrp] at hkey
  rw [globMatchS, hpd, hkey]
  exact globMatch_prefix_star (by decide) hpat mid post

theorem gt_pattern_matches (g' : String) (hgc : ∀ c ∈ g'.data, c ≠ '*' ∧ c ≠ '?')
    (behavior_name : Option String) (user_id : Option Int) (limit : Int) :
    globMatchS ("catalog:*game_title=" ++ g' ++ "*")
      (get_catalog_cache_key (some g') behavior_name user_id limit) = true := by
  unfold get_catalog_cache_key
  apply glob_field_matches "game_title=" (g') ("game_title", Scalar.s g')
  · cases behavior_name <;> cases user_id <;>
      simp [read_query_params, filtered_params, List.filterMap_cons]
  · simp only [renderPair, Scalar.render, String.data_append]
    have h0 : "game_title".data ++ "=".data = "game_title=".data := by decide
    rw [h0]
  · intro c hc
    rcases List.mem_append.mp hc with h | h
    · revert h
      have : ∀ c ∈ "game_title=".data, c ≠ '*' ∧ c ≠ '?' := by decide
      exact this c
    · exact hgc c h
  · simp only [String.data_append]
    simp only [List.cons_append, List.nil_append, List.append_assoc]

theorem bn_pattern_matches (b' : String) (hbc : ∀ c ∈ b'.data, c ≠ '*' ∧ c ≠ '?')
    (game_title : Option String) (user_id : Option Int) (limit : Int) :
    globMatchS ("catalog:*behavior_name=" ++ b' ++ "*")
      (get_catalog_cache_key game_title (some b') user_id limit) = true := by
  unfold get_catalog_cache_key
  apply glob_field_matches "behavior_name=" (b') ("behavior_name", Scalar.s b')
  · cases game_title <;> cases user_id <;>
      simp [read_query_params, filtered_params, List.filterMap_cons]
  · simp only [renderPair, Scalar.render, String.data_append]
    have h0 : "behavior_name".data ++ "=".data = "behavior_name=".data := by decide
    rw [h0]
  · intro c hc
    rcases List.mem_append.mp hc with h | h
    · revert h
      have : ∀ c ∈ "behavior_name=".data, c ≠ '*' ∧ c ≠ '?' := by decide
      exact this c
    · exact hbc c h
  · simp only [String.data_append]
    simp only [List.cons_append, List.nil_append, List.append_assoc]

theorem uid_pattern_matches (u' : Int) (huc : ∀ c ∈ (toString u').data, c ≠ '*' ∧ c ≠ '?')
    (game_title behavior_name : Option String) (limit : Int) :
    globMatchS ("catalog:*user_id=" ++ toString u' ++ "*")
      (get_catalog_cache_key game_title behavior_name (some u') limit) = true := by
  unfold get_catalog_cache_key
  apply glob_field_matches "user_id=" (toString u') ("user_id", Scalar.i u')
  · cases game_title <;> cases behavior_name <;>
      simp [read_query_params, filtered_params, List.filterMap_cons]
  · simp only [renderPair, Scalar.render, String.data_append]
    have h0 : "user_id".data ++ "=".data = "user_id=".data := by decide
    rw [h0]
  · intro c hc
    rcases List.mem_append.mp hc with h | h
    · revert h
      have : ∀ c ∈ "user_id=".data, c ≠ '*' ∧ c ≠ '?' := by decide
      exact this c
    · exact huc c h
  · simp only [String.data_append]
    simp only [List.cons_append, List.nil_append, List.append_assoc]

/-- C1 counterexample: the Scenario-3 write (`game_title="Portal"`,
`behavior_name="play"`, `user_id=1`, value 1) passes validation, and a
filterless read caches the all-records result (which would include the new
record) under `"catalog:limit=10000"` - yet none of the four produced
purge patterns matches that key, so it stays cached: under-invalidation. -/
theorem under_invalidation_counterexample :
    catalog_write_rejection (some 1) (some "Portal") (some "play") (some 1) = none ∧
    record_matches_query ⟨1, 1, "Portal", "play", 1⟩ none none none = true ∧
    get_catalog_cache_key none none none 10000 = "catalog:limit=10000" ∧
    (invalidate_catalog_cache_patterns (some "Portal") (some "play") (some 1)).all
        (fun p => !globMatchS p (get_catalog_cache_key none none none 10000)) = true :=
  ⟨by decide, by decide, by decide, by decide⟩

/-- C1 amended: the conservative guarantee holds only for cached queries that
filtered on one of the written values EXACTLY: if the read's `game_title`
equals the written (non-empty, wildcard-free) `game_title`, or its
`behavior_name` equals the written `behavior_name`, or its `user_id` equals
the written non-zero `user_id`, then some produced pattern matches the
cached key.  (Filterless reads - cached under `catalog:limit=10000` - and
substring `game_title` reads can be missed, per the counterexample.) -/
theorem invalidation_covers_exact_filters (g' b' : String) (u' : Int)
    (game_title behavior_name : Option String) (user_id : Option Int) (limit : Int)
    (hg' : g' ≠ "") (hb' : b' ≠ "")
    (hgc : ∀ c ∈ g'.data, c ≠ '*' ∧ c ≠ '?')
    (hbc : ∀ c ∈ b'.data, c ≠ '*' ∧ c ≠ '?')
    (huc : ∀ c ∈ (toString u').data, c ≠ '*' ∧ c ≠ '?')
    (hcase : game_title = some g' ∨ behavior_name = some b' ∨
      (u' ≠ 0 ∧ user_id = some u')) :
    ∃ p ∈ invalidate_catalog_cache_patterns (some g') (some b') (some u'),
      globMatchS p (get_catalog_cache_key game_title behavior_name user_id limit) = true := by
  rcases hcase with rfl | rfl | ⟨hu', rfl⟩
  · exact ⟨"catalog:*game_title=" ++ g' ++ "*",
      by simp [invalidate_catalog_cache_patterns, gt_patterns, hg'],
      gt_pattern_matches g' hgc behavior_name user_id limit⟩
  · exact ⟨"catalog:*behavior_name=" ++ b' ++ "*",
      by simp [invalidate_catalog_cache_patterns, bn_patterns, hb'],
      bn_pattern_matches b' hbc game_title user_id limit⟩
  · exact ⟨"catalog:*user_id=" ++ toString u' ++ "*",
      by simp [invalidate_catalog_cache_patterns, uid_patterns, hu'],
      uid_pattern_matches u' huc game_title behavior_name limit⟩

/-- Witness for C1's amended theorem: write `("Portal", "play", 5)`, read
filtering on `behavior_name = "play"`, evaluated concretely. -/
theorem invalidation_covers_exact_filters_witness :
    ∃ p ∈ invalidate_catalog_cache_patterns (some "Portal") (some "play") (some 5),
      globMatchS p (get_catalog_cache_key none (some "play") none 10000) = true :=
  invalidation_covers_exact_filters "Portal" "play" 5 none (some "play") none 10000
    (by decide) (by decide) (by decide) (by decide) (by decide)
    (Or.inr (Or.inl rfl))

/-! ### Injectivity of the key builder on clean rendered entries -/

/-- The effective content of a filter mapping as the reader of a key sees it:
the non-null `(field, rendered value)` pairs. -/
def rendered_entries (f : List (String × Option Scalar)) : List (String × String) :=
  (filtered_params f).map fun p => (p.1, p.2.render)

/-- A string free of the two separator characters of the key syntax. -/
def cleanStr (s : String) : Prop := '&' ∉ s.data ∧ '=' ∉ s.data

instance (s : String) : Decidable (cleanStr s) := by unfold cleanStr; infer_instance

/-- The rendered form of one `(field, rendered value)` pair. -/
def pairJoin (p : String × String) : String := p.1 ++ "=" ++ p.2

theorem string_eq_of_data_eq {s t : String} (h : s.data = t.data) : s = t := by
  cases s with
  | mk ds =>
    cases t with
    | mk dt =>
      simp only [] at h
      rw [h]

theorem sep_split {c : Char} : ∀ {a b r1 r2 : List Char}, c ∉ a → c ∉ b →
    a ++ c :: r1 = b ++ c :: r2 → a = b ∧ r1 = r2 := by
  intro a
  induction a with
  | nil =>
    intro b r1 r2 _ hb h
    cases b with
    | nil =>
      simp only [List.nil_append, List.cons.injEq] at h
      exact ⟨rfl, h.2⟩
    | cons y bs =>
      simp only [List.nil_append, List.cons_append, List.cons.injEq] at h
      exact absurd (h.1 ▸ List.mem_cons_self y bs) hb
  | cons x as ih =>
    intro b r1 r2 ha hb h
    cases b with
    | nil =>
      simp only [List.cons_append, List.nil_append, List.cons.injEq] at h
      exact absurd (h.1 ▸ List.mem_cons_self x as) ha
    | cons y bs =>
      simp only [List.cons_append, List.cons.injEq] at h
      obtain ⟨rfl, htl⟩ := h
      obtain ⟨h1, h2⟩ := ih (fun hmem => ha (List.mem_cons_of_mem x hmem))
        (fun hmem => hb (List.mem_cons_of_mem x hmem)) htl
      exact ⟨by rw [h1], h2⟩

theorem pairJoin_data (p : String × String) :
    (pairJoin p).data = p.1.data ++ '=' :: p.2.data := by
  simp only [pairJoin, String.data_append, List.append_assoc, List.singleton_append,
    List.cons_append, List.nil_append]

theorem renderPair_eq_pairJoin (pr : String × Scalar) :
    renderPair pr = pairJoin (pr.1, pr.2.render) := rfl

theorem pairJoin_inj : ∀ {l1 l2 : List (String × String)},
    (∀ p ∈ l1, cleanStr p.1 ∧ cleanStr p.2) →
    (∀ p ∈ l2, cleanStr p.1 ∧ cleanStr p.2) →
    l1.map pairJoin = l2.map pairJoin → l1 = l2 := by
  intro l1
  induction l1 with
  | nil =>
    intro l2 _ _ h
    cases l2 with
    | nil => rfl
    | cons q t2 => simp at h
  | cons p t ih =>
    intro l2 hc1 hc2 h
    cases l2 with
    | nil => simp at h
    | cons q t2 =>
      simp only [List.map_cons, List.cons.injEq] at h
      obtain ⟨hpq, ht⟩ := h
      have hd := congrArg String.data hpq
      rw [pairJoin_data, pairJoin_data] at hd
      obtain ⟨hk, hv⟩ :=
        sep_split (hc1 p (List.mem_cons_self p t)).1.2 (hc2 q (List.mem_cons_self q t2)).1.2 hd
      have hrest := ih (fun x hx => hc1 x (List.mem_cons_of_mem p hx))
        (fun x hx => hc2 x (List.mem_cons_of_mem q hx)) ht
      rcases p with ⟨pk, pv⟩
      rcases q with ⟨qk, qv⟩
      have hk' : pk = qk := string_eq_of_data_eq hk
      have hv' : pv = qv := string_eq_of_data_eq hv
      rw [hk', hv', hrest]

theorem joinAmp_data (l : List String) :
    (joinAmp l).data = List.intercalate ['&'] (l.map String.data) := rfl

theorem map_data_inj {l1 l2 : List String}
    (h : l1.map String.data = l2.map String.data) : l1 = l2 :=
  List.map_injective_iff.mpr (fun a b hab => string_eq_of_data_eq hab) h

theorem renderPair_data (pr : String × Scalar) :
    (renderPair pr).data = pr.1.data ++ '=' :: (pr.2.render).data := by
  rw [renderPair_eq_pairJoin, pairJoin_data]

theorem amp_not_mem_renderPair {pr : String × Scalar}
    (h1 : cleanStr pr.1) (h2 : cleanStr pr.2.render) : '&' ∉ (renderPair pr).data := by
  rw [renderPair_data]
  intro hmem
  rcases List.mem_append.mp hmem with h | h
  · exact h1.1 h
  · rcases List.mem_cons.mp h with h | h
    · exact absurd h (by decide)
    · exact h2.1 h

theorem eq_mem_renderPair (pr : String × Scalar) : '=' ∈ (renderPair pr).data := by
  rw [renderPair_data]
  exact List.mem_append.mpr (Or.inr (List.mem_cons_self '=' _))

theorem sortPairs_ne_nil {l : List (String × Scalar)} (h : l ≠ []) : sortPairs l ≠ [] := by
  intro h0
  apply h
  have hperm := sortPairs_perm l
  rw [h0] at hperm
  exact (hperm.symm).eq_nil

theorem clean_of_mem_sortPairs {f : List (String × Option Scalar)}
    (hc : ∀ p ∈ rendered_entries f, cleanStr p.1 ∧ cleanStr p.2)
    {pr : String × Scalar} (hpr : pr ∈ sortPairs (filtered_params f)) :
    cleanStr pr.1 ∧ cleanStr pr.2.render := by
  have hmem : pr ∈ filtered_params f := ((sortPairs_perm _).mem_iff).mp hpr
  exact hc (pr.1, pr.2.render)
    (List.mem_map_of_mem (fun p => (p.1, p.2.render)) hmem)

/-- The `"<ns>:all"` key never coincides with a key rendered from a nonempty
clean pair list: the latter's pair segment contains `=`, which `all` lacks. -/
theorem all_key_ne_pairs_key {ns : String} {f : List (String × Option Scalar)}
    (h : filtered_params f ≠ []) :
    ns ++ ":all" ≠ generate_cache_key ns f := by
  rw [generate_cache_key_of_ne_nil ns h]
  intro heq
  have hd := congrArg String.data heq
  simp only [String.data_append, joinAmp_data, List.append_assoc] at hd
  have hd2 := List.append_cancel_left hd
  simp only [List.cons_append, List.nil_append, List.cons.injEq, true_and] at hd2
  -- hd2 : "all".data = the intercalated pair segment
  have hSne : sortPairs (filtered_params f) ≠ [] := sortPairs_ne_nil h
  obtain ⟨pr, rest, hS⟩ : ∃ pr rest, sortPairs (filtered_params f) = pr :: rest := by
    cases hS0 : sortPairs (filtered_params f) with
    | nil => exact absurd hS0 hSne
    | cons pr rest => exact ⟨pr, rest, rfl⟩
  have hmem : (renderPair pr).data ∈
      ((sortPairs (filtered_params f)).map renderPair).map String.data := by
    rw [hS]
    simp
  rcases exists_of_mem_intercalate hmem with ⟨pre, post, hj⟩
  have heqm : '=' ∈ List.intercalate ['&']
      (((sortPairs (filtered_params f)).map renderPair).map String.data) := by
    rw [hj]
    exact List.mem_append.mpr (Or.inr (List.mem_append.mpr (Or.inl (eq_mem_renderPair pr))))
  rw [← hd2] at heqm
  exact absurd heqm (by decide)

theorem rendered_perm_of_key_eq {ns : String} {f1 f2 : List (String × Option Scalar)}
    (hc1 : ∀ p ∈ rendered_entries f1, cleanStr p.1 ∧ cleanStr p.2)
    (hc2 : ∀ p ∈ rendered_entries f2, cleanStr p.1 ∧ cleanStr p.2)
    (hkey : generate_cache_key ns f1 = generate_cache_key ns f2) :
    rendered_entries f1 ~ rendered_entries f2 := by
  by_cases h1 : filtered_params f1 = []
  · by_cases h2 : filtered_params f2 = []
    · simp [rendered_entries, h1, h2]
    · exfalso
      apply all_key_ne_pairs_key h2
      rw [← hkey, generate_cache_key_of_nil ns h1]
  · by_cases h2 : filtered_params f2 = []
    · exfalso
      apply all_key_ne_pairs_key h1
      rw [hkey, generate_cache_key_of_nil ns h2]
    · rw [generate_cache_key_of_ne_nil ns h1, generate_cache_key_of_ne_nil ns h2] at hkey
      have hd := congrArg String.data hkey
      simp only [String.data_append, joinAmp_data, List.append_assoc] at hd
      have hd2 := List.append_cancel_left hd
      simp only [List.cons_append, List.nil_append, List.cons.injEq, true_and] at hd2
      have hamp1 : ∀ x ∈ ((sortPairs (filtered_params f1)).map renderPair).map String.data,
          '&' ∉ x := by
        intro x hx
        rcases List.mem_map.mp hx with ⟨s, hs, rfl⟩
        rcases List.mem_map.mp hs with ⟨pr, hpr, rfl⟩
        have hcl := clean_of_mem_sortPairs hc1 hpr
        exact amp_not_mem_renderPair hcl.1 hcl.2
      have hamp2 : ∀ x ∈ ((sortPairs (filtered_params f2)).map renderPair).map String.data,
          '&' ∉ x := by
        intro x hx
        rcases List.mem_map.mp hx with ⟨s, hs, rfl⟩
        rcases List.mem_map.mp hs with ⟨pr, hpr, rfl⟩
        have hcl := clean_of_mem_sortPairs hc2 hpr
        exact amp_not_mem_renderPair hcl.1 hcl.2
      have hMne1 : ((sortPairs (filtered_params f1)).map renderPair).map String.data ≠ [] := by
        simp [sortPairs_ne_nil h1]
      have hMne2 : ((sortPairs (filtered_params f2)).map renderPair).map String.data ≠ [] := by
        simp [sortPairs_ne_nil h2]
      have hs1 := List.splitOn_intercalate _ '&' hamp1 hMne1
      have hs2 := List.splitOn_intercalate _ '&' hamp2 hMne2
      have hM : ((sortPairs (filtered_params f1)).map renderPair).map String.data =
          ((sortPairs (filtered_params f2)).map renderPair).map String.data := by
        rw [← hs1, ← hs2, hd2]
      have hL := map_data_inj hM
      have hconv : ∀ S : List (String × Scalar),
          S.map renderPair = (S.map (fun pr => (pr.1, pr.2.render))).map pairJoin := by
        intro S
        rw [List.map_map]
        rfl
      rw [hconv, hconv] at hL
      have hcS1 : ∀ p ∈ (sortPairs (filtered_params f1)).map (fun pr => (pr.1, pr.2.render)),
          cleanStr p.1 ∧ cleanStr p.2 := by
        intro p hp
        rcases List.mem_map.mp hp with ⟨pr, hpr, rfl⟩
        exact clean_of_mem_sortPairs hc1 hpr
      have hcS2 : ∀ p ∈ (sortPairs (filtered_params f2)).map (fun pr => (pr.1, pr.2.render)),
          cleanStr p.1 ∧ cleanStr p.2 := by
        intro p hp
        rcases List.mem_map.mp hp with ⟨pr, hpr, rfl⟩
        exact clean_of_mem_sortPairs hc2 hpr
      have hR := pairJoin_inj hcS1 hcS2 hL
      unfold rendered_entries
      calc (filtered_params f1).map (fun p => (p.1, p.2.render))
          ~ (sortPairs (filtered_params f1)).map (fun p => (p.1, p.2.render)) :=
            ((sortPairs_perm _).map _).symm
        _ = (sortPairs (filtered_params f2)).map (fun p => (p.1, p.2.render)) := hR
        _ ~ (filtered_params f2).map (fun p => (p.1, p.2.render)) := (sortPairs_perm _).map _

/-- C3 counterexample: the mappings `{a: "1&b=2"}` and `{a: "1", b: "2"}`
have different non-null entry sets yet render to the same key
`"catalog:a=1&b=2"` - a value containing the separator characters forges
extra pairs, so arbitrary scalar values do collide. -/
theorem generate_cache_key_collision :
    generate_cache_key "catalog" [("a", some (.s "1&b=2"))] =
      generate_cache_key "catalog" [("a", some (.s "1")), ("b", some (.s "2"))] ∧
    ¬ (filtered_params [("a", some (.s "1&b=2"))] ~
        filtered_params [("a", some (.s "1")), ("b", some (.s "2"))]) ∧
    ¬ (rendered_entries [("a", some (.s "1&b=2"))] ~
        rendered_entries [("a", some (.s "1")), ("b", some (.s "2"))]) :=
  ⟨by decide, by decide, by decide⟩

/-- C3 amended: the key builder is injective on the non-null `(field,
rendered value)` entry multisets, provided field names and rendered values
contain neither `&` nor `=` (the key syntax's separators): two mappings
whose clean rendered entry sets differ produce distinct keys, for every
namespace.  (Values are compared after rendering: `1` and `"1"` print alike
and genuinely collide, as does a value smuggling `&`/`=`.) -/
theorem generate_cache_key_injective (ns : String) (f1 f2 : List (String × Option Scalar))
    (hc1 : ∀ p ∈ rendered_entries f1, cleanStr p.1 ∧ cleanStr p.2)
    (hc2 : ∀ p ∈ rendered_entries f2, cleanStr p.1 ∧ cleanStr p.2)
    (hne : ¬ (rendered_entries f1 ~ rendered_entries f2)) :
    generate_cache_key ns f1 ≠ generate_cache_key ns f2 :=
  fun hkey => hne (rendered_perm_of_key_eq hc1 hc2 hkey)

/-- Witness for C3's amended theorem: `{a: "1"}` versus `{b: "1"}`,
evaluated concretely. -/
theorem generate_cache_key_injective_witness :
    generate_cache_key "catalog" [("a", some (.s "1"))] ≠
      generate_cache_key "catalog" [("b", some (.s "1"))] :=
  generate_cache_key_injective "catalog" _ _ (by decide) (by decide) (by decide)
